import Mathlib

/-!
Shallow embedding of `src/main.py` (webcam surveillance system).

The program has three cores: a bounded drop-oldest frame buffer shared by a
capture loop and a processing loop, a frame-to-frame motion detector, and a
time-rotated segment writer with per-segment metadata flushing.  Frames and
the image filters applied to them (`cv2.cvtColor` + `cv2.GaussianBlur`) are
modelled abstractly: a frame is an element of an arbitrary type `F` and the
grayscale-plus-blur pipeline is an arbitrary function `gb : F → Image`, since
the program's logic only ever looks at the filtered intensity image.
Simulated clock instants are natural numbers of seconds.
-/

namespace Webcam

/-- Configuration constant `FRAME_WIDTH` from main.py. -/
def FRAME_WIDTH : Nat := 640

/-- Configuration constant `FRAME_HEIGHT` from main.py. -/
def FRAME_HEIGHT : Nat := 480

/-- Configuration constant `BUFFER_SIZE` from main.py. -/
def BUFFER_SIZE : Nat := 128

/-- The pixel-count cutoff `FRAME_WIDTH * FRAME_HEIGHT * MOTION_THRESHOLD`
from line 91 of main.py.  `MOTION_THRESHOLD = 0.05` and
`640 * 480 * 0.05 = 15360.0` exactly (both as a real number and as the
IEEE-754 double computed by Python), so the float comparison
`motion_area > 640 * 480 * 0.05` on the integer `motion_area` coincides with
the exact natural-number comparison `15360 < motion_area`. -/
def motionPixelLimit : Nat := FRAME_WIDTH * FRAME_HEIGHT * 5 / 100

/-- The rotation interval: the literal `3600` on line 126 of main.py. -/
def ROTATION_INTERVAL : Nat := 3600

/-- Seconds in a day: Python's `timedelta.seconds` field is the elapsed time
with whole days removed, i.e. total elapsed seconds modulo 86400. -/
def SECONDS_PER_DAY : Nat := 86400

/-! ## Frame buffer (capture_frames, lines 64–69)

The Python `Queue` is modelled as a list holding the oldest element first.
`queue_put_nowait` models a non-blocking `Queue.put`: it returns `none`
exactly when the queue is full, i.e. when the real blocking `put` would
block.  `buf_put` models the whole insertion routine of the capture loop:
evict the oldest entry when full, then insert. -/

/-- A `Queue.put` that reports `none` instead of blocking when the queue of
capacity `C` is full (`Queue.full()` is `C ≤ length`). -/
def queue_put_nowait (C : Nat) (q : List F) (x : F) : Option (List F) :=
  if q.length < C then some (q ++ [x]) else none

/-- The capture loop's insertion (main.py lines 64–69): if the buffer is
full, discard the oldest element (`get_nowait`; on an empty queue the
`Empty` exception is swallowed, leaving the queue as is, which coincides
with `List.drop 1 [] = []`), then append the new frame. -/
def buf_put (C : Nat) (q : List F) (x : F) : List F :=
  (if C ≤ q.length then q.drop 1 else q) ++ [x]

/-- The capture loop's insertion with the final `Queue.put` modelled
non-blockingly, to express that it can never block or fail. -/
def capture_put (C : Nat) (q : List F) (x : F) : Option (List F) :=
  queue_put_nowait C (if C ≤ q.length then q.drop 1 else q) x

/-- A sequence of `put` calls with no intervening takes. -/
def buf_puts (C : Nat) (q : List F) (xs : List F) : List F :=
  xs.foldl (buf_put C) q

/-- `Queue.get`: return the oldest frame and the rest, or `none` if empty. -/
def buf_take (q : List F) : Option (F × List F) :=
  match q with
  | [] => none
  | x :: rest => some (x, rest)

/-- Repeatedly `take` until the buffer is empty, collecting the results in
order. -/
def buf_drain : List F → List F
  | [] => []
  | x :: rest => x :: buf_drain rest

/-! ## Capture loop iteration (capture_frames, lines 58–69) -/

/-- Outcome of `cap.read()`: `ok frame` when `ret` is true, `err` when the
read fails transiently (`ret` false, the `FrameReadError` of the spec). -/
inductive ReadResult (F : Type u) where
  | ok (f : F)
  | err
  deriving Repr, DecidableEq

/-- State shared between the capture loop and the rest of the program: the
frame buffer and the cancellation flag (`shutdown_event`). -/
structure CapState (F : Type u) where
  buffer : List F
  shutdownFlag : Bool
  deriving Repr, DecidableEq

/-- One iteration of the capture loop (main.py lines 58–69): if the
cancellation flag is set the loop has exited and the state is unchanged;
on a failed read the iteration is skipped (`continue`) leaving the state
unchanged; on a successful read the frame is inserted drop-oldest. -/
def capture_step (C : Nat) (s : CapState F) (r : ReadResult F) : CapState F :=
  if s.shutdownFlag then s
  else
    match r with
    | .err => s
    | .ok f => { s with buffer := buf_put C s.buffer f }

/-- Run the capture loop over a list of read outcomes. -/
def capture_iter (C : Nat) (s : CapState F) (rs : List (ReadResult F)) : CapState F :=
  rs.foldl (capture_step C) s

/-! ## Motion detection (detect_motion, lines 77–93) -/

/-- A single-channel intensity image, as a flat list of pixel values. -/
abbrev Image := List Nat

/-- `cv2.absdiff`: elementwise absolute difference of two images. -/
def absdiff (a b : Image) : Image :=
  List.zipWith (fun x y => max x y - min x y) a b

/-- `cv2.threshold(d, 25, 255, THRESH_BINARY)` followed by
`cv2.countNonZero`: the number of pixels whose value strictly exceeds the
fixed cutoff 25 (THRESH_BINARY maps a pixel to 255 iff it is `> 25`). -/
def motion_area (d : Image) : Nat :=
  d.countP (fun v => decide (25 < v))

/-- `detect_motion` (main.py lines 79–93), parametrised by the filtered
intensity pipeline `gb` (cvtColor to grayscale followed by GaussianBlur).
The state is the global `previous_gray`; the function returns the motion
verdict and the updated state.  On the first call (state `none`) it stores
the filtered frame and returns false; afterwards it compares against the
previous frame's filtered intensity, counts pixels whose absolute
difference exceeds the cutoff, reports motion iff that count strictly
exceeds `motionPixelLimit`, and always stores the current filtered frame. -/
def detect_motion (gb : F → Image) (prev : Option Image) (frame : F) :
    Bool × Option Image :=
  let g := gb frame
  match prev with
  | none => (false, some g)
  | some p => (decide (motionPixelLimit < motion_area (absdiff p g)), some g)

/-! ## Segment writer (process_frames, lines 98–143)

The processing loop is driven by a simulated clock: each loop iteration is
an `Ev`, carrying the instant at which it runs and the frame dequeued from
the buffer (`none` when `frame_buffer.empty()` held and the iteration was a
bare `continue`).  Writing a metadata file is modelled by appending the
dumped record list to `files`; video output is external and not modelled
beyond the writer-open flag. -/

/-- A metadata record `{"timestamp": ..., "motion_detected": ...}`
(main.py lines 120–123). -/
structure MetaRec where
  timestamp : Nat
  motion : Bool
  deriving Repr, DecidableEq

/-- One iteration of the processing loop: the instant it runs at and the
frame it dequeued, if any. -/
structure Ev (F : Type u) where
  time : Nat
  frame : Option F
  deriving Repr, DecidableEq

/-- State of the processing loop: the active segment's start instant
(`current_time`), its accumulated `metadata_list`, the motion detector's
global `previous_gray`, the metadata files written so far (each the record
list dumped to one file, oldest first), and whether the video writer is
open. -/
structure PState where
  startTime : Nat
  metadata : List MetaRec
  prevGray : Option Image
  files : List (List MetaRec)
  writerOpen : Bool
  deriving Repr, DecidableEq

/-- The rotation test on line 126 of main.py:
`(datetime.utcnow() - current_time).seconds >= 3600`.  Python's
`timedelta.seconds` attribute is the seconds of the elapsed time with whole
days removed, so for integer-second instants it equals the total elapsed
seconds modulo 86400. -/
def rotation_due (now start : Nat) : Bool :=
  decide (ROTATION_INTERVAL ≤ (now - start) % SECONDS_PER_DAY)

/-- Initial state of `process_frames` (lines 99–106): fresh segment named
from the current instant, empty metadata, writer open; `previous_gray`
starts as `None` (line 77). -/
def init_pstate (t0 : Nat) : PState :=
  { startTime := t0, metadata := [], prevGray := none, files := [],
    writerOpen := true }

/-- One iteration of the processing loop body (main.py lines 108–137).
With an empty buffer the iteration is a bare `continue`.  Otherwise the
frame is classified, its record appended to the active segment's list, and
then — after the append — the rotation test runs: when due, the metadata
list is dumped to the segment's file, the writer is reopened for a new
segment whose start instant is the current one, and the list is cleared.
`previous_gray` is global state and survives rotation. -/
def process_step (gb : F → Image) (s : PState) (e : Ev F) : PState :=
  match e.frame with
  | none => s
  | some f =>
    let r := detect_motion gb s.prevGray f
    let md := s.metadata ++ [⟨e.time, r.1⟩]
    if rotation_due e.time s.startTime then
      { startTime := e.time, metadata := [], prevGray := r.2,
        files := s.files ++ [md], writerOpen := true }
    else
      { s with metadata := md, prevGray := r.2 }

/-- The shutdown path of `process_frames` (lines 139–142): dump the
remaining metadata list to the active segment's file and release the
writer. -/
def process_shutdown (s : PState) : PState :=
  { s with files := s.files ++ [s.metadata], writerOpen := false }

/-- A full run of `process_frames` started at instant `t0`: iterate the
loop over the events, then take the shutdown path. -/
def process_run (gb : F → Image) (t0 : Nat) (evs : List (Ev F)) : PState :=
  process_shutdown (evs.foldl (process_step gb) (init_pstate t0))

/-- The metadata records a run generates, independent of segmentation: one
record per dequeued frame, in processing order, threading the motion
detector's state. -/
def run_records (gb : F → Image) (pg : Option Image) : List (Ev F) → List MetaRec
  | [] => []
  | e :: rest =>
    match e.frame with
    | none => run_records gb pg rest
    | some f =>
      let r := detect_motion gb pg f
      ⟨e.time, r.1⟩ :: run_records gb r.2 rest

/-- How many rotations a run performs, tracking only the segment start
instant. -/
def run_rotations (start : Nat) : List (Ev F) → Nat
  | [] => 0
  | e :: rest =>
    match e.frame with
    | none => run_rotations start rest
    | some _ =>
      if rotation_due e.time start then run_rotations e.time rest + 1
      else run_rotations start rest

/-- The spec's rotation scenario, with one time unit read as one hour so
that the code's literal interval applies: frames dequeued at 0, 0.5 and 1.2
units, i.e. at 0, 1800 and 4320 seconds. -/
def scenarioEvents : List (Ev Nat) := [⟨0, some 0⟩, ⟨1800, some 0⟩, ⟨4320, some 0⟩]

/-- A concrete filtered-intensity pipeline used to evaluate scenarios. -/
def constImage : Nat → Image := fun _ => [0]

/-! ## Development lemmas -/

/-- Draining agrees with repeated `buf_take` calls. -/
theorem buf_drain_take (q : List F) :
    buf_drain q =
      match buf_take q with
      | none => []
      | some (x, r) => x :: buf_drain r := by
  cases q <;> rfl

/-- Draining a FIFO buffer returns exactly its contents, oldest first. -/
theorem buf_drain_eq (q : List F) : buf_drain q = q := by
  induction q with
  | nil => rfl
  | cons x rest ih => simp [buf_drain, ih]

/-- Core characterisation of repeated drop-oldest puts: starting from any
buffer within capacity, the result stays within capacity and holds exactly
the most recent `C` elements of the combined sequence, in order. -/
theorem buf_puts_spec (C : Nat) (hC : 0 < C) :
    ∀ (xs q : List F), q.length ≤ C →
      (buf_puts C q xs).length ≤ C ∧
      buf_puts C q xs = (q ++ xs).drop (q.length + xs.length - C) := by
  intro xs
  induction xs with
  | nil =>
    intro q hq
    refine ⟨hq, ?_⟩
    simp [buf_puts, Nat.sub_eq_zero_of_le hq]
  | cons x rest ih =>
    intro q hq
    have hstep : buf_puts C q (x :: rest) = buf_puts C (buf_put C q x) rest := rfl
    by_cases h : C ≤ q.length
    · have hqC : q.length = C := le_antisymm hq h
      have hqne : q ≠ [] := by
        intro hnil
        rw [hnil] at hqC
        simp at hqC
        omega
      obtain ⟨y, q', rfl⟩ := List.exists_cons_of_ne_nil hqne
      have hq'C : q'.length + 1 = C := by simpa using hqC
      have hput : buf_put C (y :: q') x = q' ++ [x] := by
        simp [buf_put]
        omega
      have hlen : (q' ++ [x]).length ≤ C := by
        rw [List.length_append, List.length_singleton]
        omega
      obtain ⟨ih1, ih2⟩ := ih (q' ++ [x]) hlen
      rw [hstep, hput]
      refine ⟨ih1, ?_⟩
      rw [ih2]
      have hidx1 : (q' ++ [x]).length + rest.length - C = rest.length := by
        simp
        omega
      have hidx2 : (y :: q').length + (x :: rest).length - C = rest.length + 1 := by
        simp
        omega
      rw [hidx1, hidx2]
      have hassoc : (q' ++ [x]) ++ rest = q' ++ (x :: rest) := by simp
      rw [hassoc]
      have : (y :: q' ++ x :: rest) = y :: (q' ++ x :: rest) := rfl
      rw [this, List.drop_succ_cons]
    · have hput : buf_put C q x = q ++ [x] := by
        simp [buf_put, h]
      have hlen : (q ++ [x]).length ≤ C := by
        simp
        omega
      obtain ⟨ih1, ih2⟩ := ih (q ++ [x]) hlen
      rw [hstep, hput]
      refine ⟨ih1, ?_⟩
      rw [ih2]
      have hidx : (q ++ [x]).length + rest.length - C = q.length + (x :: rest).length - C := by
        simp
        omega
      rw [hidx]
      have hassoc : (q ++ [x]) ++ rest = q ++ (x :: rest) := by simp
      rw [hassoc]

/-- The smoothed difference of a frame against itself has no pixel above
the cutoff. -/
theorem motion_area_absdiff_self (a : Image) : motion_area (absdiff a a) = 0 := by
  induction a with
  | nil => rfl
  | cons x t ih =>
    simp only [absdiff, List.zipWith_cons_cons, motion_area, List.countP_cons] at ih ⊢
    simp [ih]

/-- Accounting invariant of the processing loop: folding any event list
from any state extends the dumped files and pending metadata by exactly the
records the events generate, and performs exactly the rotations predicted
by `run_rotations`. -/
theorem process_fold_spec (gb : F → Image) :
    ∀ (evs : List (Ev F)) (s : PState),
      ((evs.foldl (process_step gb) s).files.flatten ++
          (evs.foldl (process_step gb) s).metadata
        = s.files.flatten ++ s.metadata ++ run_records gb s.prevGray evs) ∧
      (evs.foldl (process_step gb) s).files.length
        = s.files.length + run_rotations s.startTime evs := by
  intro evs
  induction evs with
  | nil =>
    intro s
    simp [run_records, run_rotations]
  | cons e rest ih =>
    intro s
    obtain ⟨t, fr⟩ := e
    obtain ⟨ih1, ih2⟩ := ih (process_step gb s ⟨t, fr⟩)
    cases fr with
    | none =>
      refine ⟨?_, ?_⟩
      · rw [List.foldl_cons, ih1]
        simp [process_step, run_records]
      · rw [List.foldl_cons, ih2]
        simp [process_step, run_rotations]
    | some f =>
      by_cases hrot : rotation_due t s.startTime
      · refine ⟨?_, ?_⟩
        · rw [List.foldl_cons, ih1]
          simp [process_step, hrot, run_records]
        · rw [List.foldl_cons, ih2]
          simp [process_step, hrot, run_rotations]
          omega
      · refine ⟨?_, ?_⟩
        · rw [List.foldl_cons, ih1]
          simp [process_step, hrot, run_records]
        · rw [List.foldl_cons, ih2]
          simp [process_step, hrot, run_rotations]

/-! ## Claim theorems -/

/-- C1: for every sequence of `put` calls (in particular one exceeding
capacity `C`) with no intervening takes, the buffer never holds more than
`C` frames, the surviving frames are exactly the `C` most-recently-put ones
in original relative order (`xs.drop (xs.length - C)`), and draining the
buffer by `take` calls returns them in that same order with no
duplication. -/
theorem frame_buffer_keeps_last_C (C : Nat) (xs : List F) (hC : 0 < C) :
    (buf_puts C ([] : List F) xs).length ≤ C ∧
    buf_puts C ([] : List F) xs = xs.drop (xs.length - C) ∧
    buf_drain (buf_puts C ([] : List F) xs) = xs.drop (xs.length - C) := by
  obtain ⟨h1, h2⟩ := buf_puts_spec C hC xs [] (by simp)
  have h2' : buf_puts C ([] : List F) xs = xs.drop (xs.length - C) := by
    simpa using h2
  refine ⟨h1, h2', ?_⟩
  rw [buf_drain_eq]
  exact h2'

/-- Witness for C1: with capacity 3 and puts `[1,2,3,4,5]` the buffer
contains `[3,4,5]`. -/
theorem frame_buffer_keeps_last_C_witness :
    0 < 3 ∧ buf_puts 3 ([] : List Nat) [1, 2, 3, 4, 5] = [3, 4, 5] := by
  refine ⟨by decide, ?_⟩
  have h := frame_buffer_keeps_last_C 3 ([1, 2, 3, 4, 5] : List Nat) (by decide)
  rw [h.2.1]
  decide

/-- C2, failing input: the rotation test on line 126 uses
`timedelta.seconds`, which discards whole days.  With a segment started at
instant 0 and a frame processed exactly one day (86400 s) later, the
elapsed time exceeds the one-hour interval yet the test is false and a run
containing that frame performs no rotation — contradicting the claim that
rotation triggers for every elapsed duration `≥` the interval, including
durations exceeding 24 hours. -/
theorem rotation_skipped_after_full_day :
    ROTATION_INTERVAL ≤ SECONDS_PER_DAY - 0 ∧
    rotation_due SECONDS_PER_DAY 0 = false ∧
    run_rotations 0 ([⟨SECONDS_PER_DAY, some 0⟩] : List (Ev Nat)) = 0 := by
  decide

/-- C3, counterexample: in the rotation scenario (interval one unit, frames
at 0, 0.5 and 1.2 units) the code does not produce metadata files with 2
and 1 records.  The rotation test runs after the frame's record is
appended, so the frame at 1.2 still lands in segment 1. -/
theorem rotation_scenario_claim_false :
    (process_run constImage 0 scenarioEvents).files.map List.length ≠ [2, 1] := by
  decide

/-- C3, amended: exactly one rotation occurs, but it happens while
processing the frame at 1.2 units, after that frame's record is appended
to segment 1; at shutdown segment 1's metadata file holds 3 records and
segment 2's holds 0. -/
theorem rotation_scenario_actual :
    (process_run constImage 0 scenarioEvents).files.map List.length = [3, 0] ∧
    run_rotations 0 scenarioEvents = 1 ∧
    (process_run constImage 0 scenarioEvents).startTime = 4320 := by
  decide

/-- C4: every call to classify after the first returns true iff the count
of pixels whose smoothed-intensity absolute difference from the previous
frame's smoothed intensity exceeds the fixed cutoff is strictly greater
than `threshold_fraction × width × height` (= `motionPixelLimit`); and for
two identical consecutive frames the result is false. -/
theorem classify_threshold_iff (gb : F → Image) (p : Image) (f fA : F) :
    ((detect_motion gb (some p) f).1 = true ↔
      motionPixelLimit < motion_area (absdiff p (gb f))) ∧
    (detect_motion gb (detect_motion gb none fA).2 fA).1 = false := by
  constructor
  · simp [detect_motion]
  · have h2 : (detect_motion gb none fA).2 = some (gb fA) := rfl
    rw [h2]
    simp [detect_motion, motion_area_absdiff_self]

/-- C5: the first call to classify always returns false, for every input
frame, and stores that frame's filtered intensity as the baseline. -/
theorem first_classify_false (gb : F → Image) (f : F) :
    detect_motion gb none f = (false, some (gb f)) := rfl

/-- C6: a run of the processing loop, whatever its events, ends with the
shutdown flush: the metadata files written partition exactly the records
generated by the run, in order; the number of files is the number of
rotations plus one (the final flush happens exactly once, even when zero
records accumulated since the last rotation, in which case the final file
is an empty array); and the video writer ends closed. -/
theorem shutdown_flush_complete (gb : F → Image) (t0 : Nat) (evs : List (Ev F)) :
    (process_run gb t0 evs).files.flatten = run_records gb none evs ∧
    (process_run gb t0 evs).files.length = run_rotations t0 evs + 1 ∧
    (process_run gb t0 evs).writerOpen = false := by
  obtain ⟨h1, h2⟩ := process_fold_spec gb evs (init_pstate t0)
  simp [init_pstate] at h1 h2
  refine ⟨?_, ?_, rfl⟩
  · simp only [process_run, process_shutdown, init_pstate, List.flatten_append,
      List.flatten_cons, List.flatten_nil, List.append_nil]
    exact h1
  · simp only [process_run, process_shutdown, init_pstate, List.length_append,
      List.length_cons, List.length_nil]
    omega

/-- C7: after every call to classify, first or not, the stored baseline is
the current frame's filtered intensity, so each subsequent classification
compares against the immediately preceding frame. -/
theorem baseline_updates_every_call (gb : F → Image) (st : Option Image) (f : F) :
    (detect_motion gb st f).2 = some (gb f) := by
  cases st <;> rfl

/-- C8: `put` never blocks and never fails: for every buffer state within
capacity, the capture loop's insertion — with the final enqueue modelled as
a non-blocking put that reports `none` when it would block — succeeds, and
when the buffer is at capacity it evicts the single oldest entry before
admitting the new frame. -/
theorem put_never_blocks (C : Nat) (q : List F) (x : F) (hC : 0 < C)
    (hq : q.length ≤ C) :
    capture_put C q x = some (buf_put C q x) ∧
    (q.length = C → buf_put C q x = q.drop 1 ++ [x]) := by
  constructor
  · unfold capture_put queue_put_nowait buf_put
    by_cases h : C ≤ q.length
    · rw [if_pos h]
      have hlt : (q.drop 1).length < C := by
        rw [List.length_drop]
        omega
      rw [if_pos hlt]
    · rw [if_neg h]
      have hlt : q.length < C := by omega
      rw [if_pos hlt]
  · intro hqC
    unfold buf_put
    rw [if_pos (le_of_eq hqC.symm)]

/-- Witness for C8: a full buffer of capacity 3 admits a fourth frame by
evicting the oldest. -/
theorem put_never_blocks_witness :
    0 < 3 ∧ ([10, 20, 30] : List Nat).length ≤ 3 ∧
    capture_put 3 ([10, 20, 30] : List Nat) 40 = some (buf_put 3 [10, 20, 30] 40) := by
  refine ⟨by decide, by decide, ?_⟩
  exact (put_never_blocks 3 [10, 20, 30] 40 (by decide) (by decide)).1

/-- C9: any number of consecutive transient read failures leaves the
capture-loop state exactly as it was: no frame is enqueued, the buffer is
unchanged, and the cancellation signal is not set, so the loop keeps
running with no backoff and no retry limit. -/
theorem read_failure_skips_iteration (C : Nat) (s : CapState F) (n : Nat) :
    capture_iter C s (List.replicate n ReadResult.err) = s ∧
    (capture_iter C s (List.replicate n ReadResult.err)).shutdownFlag
      = s.shutdownFlag := by
  have key : ∀ m (s' : CapState F),
      capture_iter C s' (List.replicate m ReadResult.err) = s' := by
    intro m
    induction m with
    | zero => intro s'; rfl
    | succ k ih =>
      intro s'
      have hstep : capture_step C s' ReadResult.err = s' := by
        simp [capture_step]
      rw [List.replicate_succ]
      show List.foldl (capture_step C) s'
        (ReadResult.err :: List.replicate k ReadResult.err) = s'
      rw [List.foldl_cons, hstep]
      exact ih s'
  exact ⟨key n s, by rw [key n s]⟩

/-- C10: the rotation condition is only evaluated when a frame is dequeued:
iterations that find the buffer empty leave the processing state — active
segment, start time, metadata, files — entirely unchanged, no matter how
late their instants are. -/
theorem no_rotation_without_frames (gb : F → Image) (s : PState)
    (evs : List (Ev F)) (h : ∀ e ∈ evs, e.frame = none) :
    evs.foldl (process_step gb) s = s := by
  induction evs with
  | nil => rfl
  | cons e rest ih =>
    have he : e.frame = none := h e (List.mem_cons_self e rest)
    have hstep : process_step gb s e = s := by
      simp [process_step, he]
    rw [List.foldl_cons, hstep]
    exact ih fun e' h' => h e' (List.mem_cons_of_mem _ h')

/-- Witness for C10: an empty-buffer iteration far past the rotation
interval (and past a whole day) changes nothing. -/
theorem no_rotation_without_frames_witness :
    ([⟨1000000, none⟩] : List (Ev Nat)).foldl (process_step constImage)
      (init_pstate 0) = init_pstate 0 :=
  no_rotation_without_frames constImage (init_pstate 0) _ (by decide)

end Webcam
